import Mathlib

/-!
Shallow embedding of the market-data ingestion pipeline
(`data_loader.py`, `sqlite_storage.py`, `parquet_storage.py`).

Tables are modelled as a list of column names plus rows of cells; a raw
CSV table holds only blank (`na`) or string cells, and normalization
turns the timestamp column into instants and the OHLCV columns into
numerics, exactly following the steps of `load_validate_data`.
-/

namespace MarketPipeline

/-- A scalar cell of a table: the missing marker (`NaN`/`NaT`), a raw
string, a parsed UTC instant, or a parsed numeric value. -/
inductive Cell where
  | na : Cell
  | str : String → Cell
  | ts : Nat → Cell
  | num : ℚ → Cell
deriving DecidableEq, Repr

/-- A data frame: column labels plus rows of cells (row cells are
positional, aligned with `columns`). -/
structure Table where
  columns : List String
  rows : List (List Cell)
deriving DecidableEq, Repr

/-- The error taxonomy of the loader.  `keyError` models the pandas
`KeyError` raised when a column is accessed but absent; `parseError`
models `pd.to_datetime` rejecting a malformed timestamp; the remaining
constructors are the four `ValueError`s of the validation gates. -/
inductive LoadError where
  | keyError (col : String)
  | parseError (cell : String)
  | missingColumns (cols : List String)
  | missingData
  | duplicateData (count : Nat)
  | missingTickers (symbols : List String)
deriving DecidableEq, Repr

/-- Index of a column label, as pandas label lookup (first match). -/
def colIdx (cols : List String) (c : String) : Option Nat :=
  cols.findIdx? (· == c)

/-- Cell of row `r` in the column labelled `c` (missing marker when the
label or the cell is absent). -/
def getCell (cols : List String) (r : List Cell) (c : String) : Cell :=
  match colIdx cols c with
  | some i => r.getD i Cell.na
  | none => Cell.na

/-- ASCII lowercasing of one character, as Python `str.lower()` acts on
column labels. -/
def charLower (c : Char) : Char :=
  if 65 ≤ c.toNat ∧ c.toNat ≤ 90 then Char.ofNat (c.toNat + 32) else c

/-- ASCII lowercasing of a string (`col.lower()`). -/
def strLower (s : String) : String :=
  String.mk (s.toList.map charLower)

/-- Parse of a canonical ISO-8601 UTC timestamp `YYYY-MM-DDTHH:MM:SSZ`
into a chronologically ordered instant code (the 14 digits read as one
number), modelling `pd.to_datetime(_, format='ISO8601', utc=True)` on
the timestamp grammar the data files use; any other string is rejected. -/
def parseISO8601 (s : String) : Option Nat :=
  match s.toList with
  | [y1, y2, y3, y4, g1, m1, m2, g2, d1, d2, t1, a1, a2, q1, b1, b2, q2, c1, c2, z1] =>
      if (g1 = '-' ∧ g2 = '-' ∧ t1 = 'T' ∧ q1 = ':' ∧ q2 = ':' ∧ z1 = 'Z') ∧
          ([y1, y2, y3, y4, m1, m2, d1, d2, a1, a2, b1, b2, c1, c2].all Char.isDigit) then
        some ([y1, y2, y3, y4, m1, m2, d1, d2, a1, a2, b1, b2, c1, c2].foldl
          (fun acc c => acc * 10 + (c.toNat - 48)) 0)
      else none
  | _ => none

/-- Digit-string parse used by the numeric coercion. -/
def parseDigits (cs : List Char) : Option Nat :=
  if cs ≠ [] ∧ cs.all Char.isDigit then
    some (cs.foldl (fun acc c => acc * 10 + (c.toNat - 48)) 0)
  else none

/-- Split a character list at each decimal point. -/
def splitDotAux (acc : List Char) : List Char → List (List Char)
  | [] => [acc.reverse]
  | c :: cs => if c = '.' then acc.reverse :: splitDotAux [] cs else splitDotAux (c :: acc) cs

/-- Unsigned decimal-literal parse (`123` or `123.45`). -/
def parseUnsigned (s : String) : Option ℚ :=
  match splitDotAux [] s.toList with
  | [a] => (parseDigits a).map (fun n => mkRat n 1)
  | [a, b] =>
      match parseDigits a, parseDigits b with
      | some n, some f => some (mkRat (n * 10 ^ b.length + f) (10 ^ b.length))
      | _, _ => none
  | _ => none

/-- Decimal-literal parse with optional sign, modelling the grammar
`pd.to_numeric` accepts on the data files' cells. -/
def parseNumeric (s : String) : Option ℚ :=
  match s.toList with
  | '-' :: rest => (parseUnsigned (String.mk rest)).map (fun q => -q)
  | _ => parseUnsigned s

/-- Step 2 and step 3 of normalization: lowercase every column label,
then rename `ticker` to `symbol` only when `ticker` is present and
`symbol` is absent (data_loader.py lines 41-47). -/
def normalizeColumns (cols : List String) : List String :=
  let lc := cols.map strLower
  if "ticker" ∈ lc ∧ "symbol" ∉ lc then
    lc.map (fun c => if c = "ticker" then "symbol" else c)
  else lc

/-- `pd.to_datetime` on one cell: a missing cell stays the missing
marker (`NaT`); a string either parses to an instant or raises. -/
def toDatetimeCell : Cell → Except LoadError Cell
  | Cell.na => .ok Cell.na
  | Cell.str s =>
      match parseISO8601 s with
      | some t => .ok (Cell.ts t)
      | none => .error (LoadError.parseError s)
  | Cell.ts t => .ok (Cell.ts t)
  | Cell.num q => .error (LoadError.parseError (toString q))

/-- Apply `toDatetimeCell` at column position `i` of every row,
propagating the first parse failure. -/
def parseTsRows (i : Nat) : List (List Cell) → Except LoadError (List (List Cell))
  | [] => .ok []
  | r :: rs =>
      match toDatetimeCell (r.getD i Cell.na) with
      | .error e => .error e
      | .ok c =>
          match parseTsRows i rs with
          | .error e => .error e
          | .ok rest => .ok (r.set i c :: rest)

/-- `df['timestamp'] = pd.to_datetime(df['timestamp'], ...)`: reading a
missing column raises `KeyError` (data_loader.py line 52). -/
def applyTimestamp (t : Table) : Except LoadError Table :=
  match colIdx t.columns "timestamp" with
  | none => .error (LoadError.keyError "timestamp")
  | some i => do
      let rows2 ← parseTsRows i t.rows
      pure { t with rows := rows2 }

/-- `pd.to_numeric(_, errors='coerce')` on one cell: unparseable data
becomes the missing marker instead of raising. -/
def toNumericCell : Cell → Cell
  | Cell.na => Cell.na
  | Cell.str s =>
      match parseNumeric s with
      | some q => Cell.num q
      | none => Cell.na
  | Cell.num q => Cell.num q
  | Cell.ts t => Cell.num t

/-- `df[c] = pd.to_numeric(df[c], errors='coerce')`: reading a missing
column raises `KeyError` (data_loader.py line 56). -/
def applyNumeric (t : Table) (c : String) : Except LoadError Table :=
  match colIdx t.columns c with
  | none => .error (LoadError.keyError c)
  | some i =>
      .ok { t with rows := t.rows.map (fun r => r.set i (toNumericCell (r.getD i Cell.na))) }

/-- The five OHLCV columns, in the loop order of data_loader.py line 55. -/
def ohlcvCols : List String := ["open", "high", "low", "close", "volume"]

/-- Numeric coercion of all five OHLCV columns, in order. -/
def applyNumerics (t : Table) : Except LoadError Table :=
  ohlcvCols.foldlM applyNumeric t

/-- Normalization (data_loader.py lines 38-58): lowercase and rename
columns, parse timestamps, coerce OHLCV columns to numeric. -/
def normalize (raw : Table) : Except LoadError Table := do
  let t1 : Table := { columns := normalizeColumns raw.columns, rows := raw.rows }
  let t2 ← applyTimestamp t1
  applyNumerics t2

/-- The seven critical columns (data_loader.py line 63). -/
def criticalCols : List String :=
  ["timestamp", "symbol", "open", "high", "low", "close", "volume"]

/-- Critical columns absent from the table (data_loader.py line 66). -/
def missingColsOf (t : Table) : List String :=
  criticalCols.filter (fun c => c ∉ t.columns)

/-- Missing markers of one row among the critical columns. -/
def rowNaCount (cols : List String) (r : List Cell) : Nat :=
  (criticalCols.filter (fun c => getCell cols r c = Cell.na)).length

/-- `df[critical_cols].isna().sum().sum()` (data_loader.py line 71). -/
def naCount (t : Table) : Nat :=
  (t.rows.map (rowNaCount t.columns)).sum

/-- The (timestamp, symbol) cells of a row, the duplicate-detection key. -/
def dupKey (cols : List String) (r : List Cell) : Cell × Cell :=
  (getCell cols r "timestamp", getCell cols r "symbol")

/-- Rows whose key already occurred earlier, as
`df.duplicated(subset=['timestamp','symbol'])` marks every occurrence
after the first one. -/
def dupCountAux (cols : List String) (seen : List (Cell × Cell)) :
    List (List Cell) → Nat
  | [] => 0
  | r :: rs =>
      (if dupKey cols r ∈ seen then 1 else 0) + dupCountAux cols (dupKey cols r :: seen) rs

/-- `df.duplicated(subset=['timestamp','symbol']).sum()`
(data_loader.py line 79). -/
def dupCount (t : Table) : Nat :=
  dupCountAux t.columns [] t.rows

/-- Timestamp instant of a cell (used only once cells are parsed). -/
def cellTs : Cell → Nat
  | Cell.ts t => t
  | _ => 0

/-- String content of a cell (used only on symbol cells). -/
def cellStr : Cell → String
  | Cell.str s => s
  | _ => ""

/-- `set(df['symbol'].unique())` (data_loader.py line 86). -/
def loadedSymbols (t : Table) : List String :=
  (t.rows.map (fun r => cellStr (getCell t.columns r "symbol"))).dedup

/-- `required_tickers - loaded_tickers` (data_loader.py line 88). -/
def missingTickersOf (required : List String) (t : Table) : List String :=
  required.filter (fun s => s ∉ loadedSymbols t)

/-- Composite (timestamp, symbol) sort key of a row. -/
def rowKey (cols : List String) (r : List Cell) : Nat × String :=
  (cellTs (getCell cols r "timestamp"), cellStr (getCell cols r "symbol"))

/-- Code-point lexicographic comparison of character lists, the order
in which pandas sorts symbol strings. -/
def chListLE : List Char → List Char → Bool
  | [], _ => true
  | _ :: _, [] => false
  | a :: as, b :: bs =>
      if a.toNat < b.toNat then true
      else if a.toNat = b.toNat then chListLE as bs
      else false

/-- Lexicographic `≤` on strings. -/
def strLE (a b : String) : Bool :=
  chListLE a.toList b.toList

/-- Lexicographic order on the composite key, as a boolean: timestamp
ascending, ties broken by symbol ascending — the order of
`set_index(['timestamp','symbol']).sort_index()`. -/
def keyLEb (cols : List String) (a b : List Cell) : Bool :=
  Nat.blt (rowKey cols a).1 (rowKey cols b).1 ||
    (Nat.beq (rowKey cols a).1 (rowKey cols b).1 && strLE (rowKey cols a).2 (rowKey cols b).2)

/-- The composite-key order as a relation. -/
def keyLE (cols : List String) (a b : List Cell) : Prop :=
  keyLEb cols a b = true

instance keyLE.instDecidable (cols : List String) : DecidableRel (keyLE cols) := fun a b =>
  inferInstanceAs (Decidable (keyLEb cols a b = true))

theorem chListLE_total (a b : List Char) : chListLE a b = true ∨ chListLE b a = true := by
  induction a generalizing b with
  | nil => exact Or.inl rfl
  | cons x xs ih =>
      cases b with
      | nil => exact Or.inr rfl
      | cons y ys =>
          rcases Nat.lt_trichotomy x.toNat y.toNat with h | h | h
          · left
            simp [chListLE, h]
          · rcases ih ys with h2 | h2
            · left
              simp [chListLE, h, h2, Nat.lt_irrefl]
            · right
              simp [chListLE, h.symm, h2, Nat.lt_irrefl]
          · right
            simp [chListLE, h]

theorem chListLE_trans (a b c : List Char) (hab : chListLE a b = true)
    (hbc : chListLE b c = true) : chListLE a c = true := by
  induction a generalizing b c with
  | nil => rfl
  | cons x xs ih =>
      cases b with
      | nil => simp [chListLE] at hab
      | cons y ys =>
          cases c with
          | nil => simp [chListLE] at hbc
          | cons z zs =>
              simp only [chListLE] at hab hbc ⊢
              rcases Nat.lt_trichotomy x.toNat y.toNat with h1 | h1 | h1 <;>
                rcases Nat.lt_trichotomy y.toNat z.toNat with h2 | h2 | h2 <;>
                  simp [h1, h2, Nat.lt_irrefl] at hab hbc ⊢ <;>
                    first
                      | exact Nat.lt_trans h1 h2
                      | (try omega) <;> exact ih ys zs hab hbc

instance keyLE.instTotal (cols : List String) : IsTotal (List Cell) (keyLE cols) := by
  constructor
  intro a b
  unfold keyLE keyLEb
  rcases Nat.lt_trichotomy (rowKey cols a).1 (rowKey cols b).1 with h | h | h
  · left
    simp [Nat.blt_eq, h]
  · rcases chListLE_total (rowKey cols a).2.toList (rowKey cols b).2.toList with h2 | h2
    · left
      simp only [Bool.or_eq_true, Bool.and_eq_true, Nat.blt_eq, Nat.beq_eq, strLE]
      exact Or.inr ⟨h, h2⟩
    · right
      simp only [Bool.or_eq_true, Bool.and_eq_true, Nat.blt_eq, Nat.beq_eq, strLE]
      exact Or.inr ⟨h.symm, h2⟩
  · right
    simp [Nat.blt_eq, h]

instance keyLE.instTrans (cols : List String) : IsTrans (List Cell) (keyLE cols) := by
  constructor
  intro a b c hab hbc
  unfold keyLE keyLEb at hab hbc ⊢
  simp only [Bool.or_eq_true, Bool.and_eq_true, Nat.blt_eq, Nat.beq_eq, strLE] at hab hbc ⊢
  rcases hab with h1 | ⟨h1, h1s⟩
  · rcases hbc with h2 | ⟨h2, _⟩
    · exact Or.inl (Nat.lt_trans h1 h2)
    · exact Or.inl (h2 ▸ h1)
  · rcases hbc with h2 | ⟨h2, h2s⟩
    · exact Or.inl (h1 ▸ h2)
    · exact Or.inr ⟨h1.trans h2, chListLE_trans _ _ _ h1s h2s⟩

/-- The four validation gates in their fixed order, then the composite
(timestamp, symbol) reindex-and-sort (data_loader.py lines 60-99). -/
def validateAndIndex (required : List String) (t : Table) : Except LoadError Table :=
  if missingColsOf t ≠ [] then .error (LoadError.missingColumns (missingColsOf t))
  else if naCount t > 0 then .error LoadError.missingData
  else if dupCount t > 0 then .error (LoadError.duplicateData (dupCount t))
  else if missingTickersOf required t ≠ [] then
    .error (LoadError.missingTickers (missingTickersOf required t))
  else .ok { t with rows := List.insertionSort (keyLE t.columns) t.rows }

/-- `load_validate_data`: normalize the raw market table, run the
validation gates, and return the reindexed table.  `required` is the
set of symbols loaded from the tickers file. -/
def load_validate_data (required : List String) (raw : Table) : Except LoadError Table := do
  let t ← normalize raw
  validateAndIndex required t

/-! ## Relational persister (`sqlite_storage.py`) -/

/-- One row of the `tickers` dimension table, loaded verbatim from the
tickers file (surrogate key plus descriptive columns). -/
structure TickerRow where
  ticker_id : Int
  symbol : String
  name : String
  exchange : String
deriving DecidableEq, Repr

/-- One row of the `prices` fact table: ISO-serialized timestamp, the
(nullable) foreign key, and the five OHLCV values. -/
structure PriceRow where
  timestamp : String
  ticker_id : Option Int
  «open» : ℚ
  high : ℚ
  low : ℚ
  close : ℚ
  volume : ℚ
deriving DecidableEq, Repr

/-- The relational store: the two tables of the destination schema. -/
structure SqliteDb where
  tickers : List TickerRow
  prices : List PriceRow
deriving DecidableEq, Repr

/-- Decimal digit as a character. -/
def digitChar (n : Nat) : Char := Char.ofNat (48 + n)

/-- Two-digit zero-padded decimal rendering. -/
def pad2 (n : Nat) : String := String.mk [digitChar (n / 10 % 10), digitChar (n % 10)]

/-- Four-digit zero-padded decimal rendering. -/
def pad4 (n : Nat) : String :=
  String.mk [digitChar (n / 1000 % 10), digitChar (n / 100 % 10),
    digitChar (n / 10 % 10), digitChar (n % 10)]

/-- ISO-8601 string serialization of an instant code, as
`str(pd.Timestamp)` renders a UTC timestamp (sqlite_storage.py line 72). -/
def renderTs (t : Nat) : String :=
  pad4 (t / 10 ^ 10) ++ "-" ++ pad2 (t / 10 ^ 8 % 100) ++ "-" ++ pad2 (t / 10 ^ 6 % 100) ++
    " " ++ pad2 (t / 10 ^ 4 % 100) ++ ":" ++ pad2 (t / 100 % 100) ++ ":" ++ pad2 (t % 100) ++
    "+00:00"

/-- Numeric content of a cell (used on validated OHLCV cells). -/
def cellNum : Cell → ℚ
  | Cell.num q => q
  | _ => 0

/-- The symbol→surrogate-key map built with
`dict(zip(ticker_map_df['symbol'], ticker_map_df['ticker_id']))`: a
later row with the same symbol overwrites an earlier one, and an
unmapped symbol yields no key (sqlite_storage.py lines 61-62, 68). -/
def symbolToId (tickers : List TickerRow) (s : String) : Option Int :=
  (tickers.reverse.find? (fun tr => tr.symbol == s)).map TickerRow.ticker_id

/-- One `prices` row built from one Validated Table row: serialized
timestamp, mapped (possibly null) foreign key, OHLCV values
(sqlite_storage.py lines 64-75). -/
def priceRowOf (tickers : List TickerRow) (cols : List String) (r : List Cell) : PriceRow :=
  { timestamp := renderTs (cellTs (getCell cols r "timestamp")),
    ticker_id := symbolToId tickers (cellStr (getCell cols r "symbol")),
    «open» := cellNum (getCell cols r "open"),
    high := cellNum (getCell cols r "high"),
    low := cellNum (getCell cols r "low"),
    close := cellNum (getCell cols r "close"),
    volume := cellNum (getCell cols r "volume") }

/-- Modelled from the spec: `schema.sql` is not among the source files
(only `cursor.executescript(schema_sql)` consumes it); per §4.5 the
schema step recreates the destination schema destructively — any prior
contents of `tickers` and `prices` are dropped, leaving both tables
empty. -/
def executeSchema (_prev : Option SqliteDb) : SqliteDb :=
  { tickers := [], prices := [] }

/-- `create_and_populate_db`: run the schema script against whatever
store existed before, replace `tickers` with the registry table
verbatim, then append one mapped row per Validated Table row into
`prices` (sqlite_storage.py lines 32-83). -/
def create_and_populate_db (prev : Option SqliteDb) (tickersTable : List TickerRow)
    (df : Table) : SqliteDb :=
  let db0 := executeSchema prev
  let db1 : SqliteDb := { db0 with tickers := tickersTable }
  { db1 with prices := db1.prices ++ df.rows.map (priceRowOf db1.tickers df.columns) }

/-! ## Columnar persister (`parquet_storage.py`) -/

/-- A partitioned dataset: one (symbol, sub-table) group per distinct
symbol; the partition column is not stored inside the group. -/
abbrev ParquetDataset := List (String × Table)

/-- Row restriction to a selection of column labels. -/
def restrictRow (cols : List String) (r : List Cell) (sel : List String) : List Cell :=
  sel.map (getCell cols r)

/-- The stored columns of a partition: everything but the partition
column `symbol` (removed at write time). -/
def dataCols (df : Table) : List String :=
  df.columns.filter (fun c => c ≠ "symbol")

/-- One symbol's sub-group: that symbol's rows in their inherited
order, restricted to the non-partition columns. -/
def partitionOf (df : Table) (s : String) : Table :=
  { columns := dataCols df,
    rows := (df.rows.filter
        (fun r => cellStr (getCell df.columns r "symbol") == s)).map
      (fun r => restrictRow df.columns r (dataCols df)) }

/-- `save_to_parquet`: reset the index (key columns are already plain
columns here) and write one sub-group per distinct symbol, each holding
that symbol's rows in their inherited order, without the symbol column
(parquet_storage.py lines 16-43). -/
def save_to_parquet (df : Table) : ParquetDataset :=
  (df.rows.map (fun r => cellStr (getCell df.columns r "symbol"))).dedup.map (fun s =>
    (s, partitionOf df s))

/-- The stateful write: `shutil.rmtree` discards any existing dataset
before the fresh partitioned write (parquet_storage.py lines 31-42). -/
def saveParquetRun (_prev : Option ParquetDataset) (df : Table) : ParquetDataset :=
  save_to_parquet df

/-- Partition-pruned read `pd.read_parquet(path, filters=[('symbol','==',s)])`:
the one partition's rows, with the symbol column reconstructed from the
directory name and appended (parquet_storage.py lines 59-63). -/
def read_parquet_filtered (ds : ParquetDataset) (s : String) : Table :=
  match ds.find? (fun p => p.1 == s) with
  | some p =>
      { columns := p.2.columns ++ ["symbol"],
        rows := p.2.rows.map (fun r => r ++ [Cell.str s]) }
  | none => { columns := [], rows := [] }

/-- Column-pruned read `pd.read_parquet(path, columns=sel)`: all
partitions concatenated, restricted to the requested columns
(parquet_storage.py lines 76-80). -/
def read_parquet_columns (ds : ParquetDataset) (sel : List String) : Table :=
  { columns := sel,
    rows := ds.flatMap (fun p => p.2.rows.map (fun r =>
      restrictRow (p.2.columns ++ ["symbol"]) (r ++ [Cell.str p.1]) sel)) }

/-- The whole pipeline: load-and-validate, then persist to both
backends; a validation failure aborts before either store is built. -/
def runPipeline (required : List String) (tickersTable : List TickerRow) (raw : Table)
    (prevDb : Option SqliteDb) (prevPq : Option ParquetDataset) :
    Except LoadError (SqliteDb × ParquetDataset) := do
  let df ← load_validate_data required raw
  pure (create_and_populate_db prevDb tickersTable df, saveParquetRun prevPq df)

/-! ## Concrete sample inputs (used by witnesses and counterexamples) -/

/-- A valid raw market file: mixed-case headers, `Ticker` column, three
bars over two symbols, unsorted. -/
def sampleRaw : Table :=
  { columns := ["Timestamp", "Ticker", "Open", "High", "Low", "Close", "Volume"],
    rows := [
      [.str "2025-11-17T09:31:00Z", .str "AAPL", .str "270.88", .str "271.50",
        .str "270.88", .str "271.12", .str "1500"],
      [.str "2025-11-17T09:30:00Z", .str "MSFT", .str "184.21", .str "184.51",
        .str "183.63", .str "183.89", .str "4997"],
      [.str "2025-11-17T09:30:00Z", .str "AAPL", .str "271.45", .str "272.07",
        .str "270.77", .str "270.88", .str "1416"]] }

/-- `sampleRaw` after normalization (checked by `rfl` below). -/
def sampleNorm : Table :=
  { columns := ["timestamp", "symbol", "open", "high", "low", "close", "volume"],
    rows := [
      [.ts 20251117093100, .str "AAPL", .num (mkRat 27088 100), .num (mkRat 27150 100),
        .num (mkRat 27088 100), .num (mkRat 27112 100), .num (mkRat 1500 1)],
      [.ts 20251117093000, .str "MSFT", .num (mkRat 18421 100), .num (mkRat 18451 100),
        .num (mkRat 18363 100), .num (mkRat 18389 100), .num (mkRat 4997 1)],
      [.ts 20251117093000, .str "AAPL", .num (mkRat 27145 100), .num (mkRat 27207 100),
        .num (mkRat 27077 100), .num (mkRat 27088 100), .num (mkRat 1416 1)]] }

/-- `sampleRaw` after validation and (timestamp, symbol) reindexing. -/
def sampleOut : Table :=
  { columns := ["timestamp", "symbol", "open", "high", "low", "close", "volume"],
    rows := [
      [.ts 20251117093000, .str "AAPL", .num (mkRat 27145 100), .num (mkRat 27207 100),
        .num (mkRat 27077 100), .num (mkRat 27088 100), .num (mkRat 1416 1)],
      [.ts 20251117093000, .str "MSFT", .num (mkRat 18421 100), .num (mkRat 18451 100),
        .num (mkRat 18363 100), .num (mkRat 18389 100), .num (mkRat 4997 1)],
      [.ts 20251117093100, .str "AAPL", .num (mkRat 27088 100), .num (mkRat 27150 100),
        .num (mkRat 27088 100), .num (mkRat 27112 100), .num (mkRat 1500 1)]] }

/-- A market file missing the `open` column. -/
def rawNoOpen : Table :=
  { columns := ["Timestamp", "Symbol", "High", "Low", "Close", "Volume"],
    rows := [[.str "2025-11-17T09:30:00Z", .str "AAPL", .str "272.07", .str "270.77",
      .str "270.88", .str "1416"]] }

/-- A market file with a duplicate (timestamp, symbol) pair AND a blank
`close` cell. -/
def rawDupAndNa : Table :=
  { columns := ["timestamp", "symbol", "open", "high", "low", "close", "volume"],
    rows := [
      [.str "2025-11-17T09:30:00Z", .str "AAPL", .str "1", .str "2", .str "1",
        .str "2", .str "10"],
      [.str "2025-11-17T09:30:00Z", .str "AAPL", .str "1", .str "2", .str "1",
        .na, .str "10"]] }

/-- `rawDupAndNa` after normalization. -/
def normDupAndNa : Table :=
  { columns := ["timestamp", "symbol", "open", "high", "low", "close", "volume"],
    rows := [
      [.ts 20251117093000, .str "AAPL", .num (mkRat 1 1), .num (mkRat 2 1),
        .num (mkRat 1 1), .num (mkRat 2 1), .num (mkRat 10 1)],
      [.ts 20251117093000, .str "AAPL", .num (mkRat 1 1), .num (mkRat 2 1),
        .num (mkRat 1 1), .na, .num (mkRat 10 1)]] }

/-- A market file with two fully valid rows sharing one
(timestamp, symbol) key. -/
def rawDup : Table :=
  { columns := ["timestamp", "symbol", "open", "high", "low", "close", "volume"],
    rows := [
      [.str "2025-11-17T09:30:00Z", .str "AAPL", .str "1", .str "2", .str "1",
        .str "2", .str "10"],
      [.str "2025-11-17T09:30:00Z", .str "AAPL", .str "1", .str "2", .str "1",
        .str "2", .str "10"]] }

/-- `rawDup` after normalization. -/
def normDup : Table :=
  { columns := ["timestamp", "symbol", "open", "high", "low", "close", "volume"],
    rows := [
      [.ts 20251117093000, .str "AAPL", .num (mkRat 1 1), .num (mkRat 2 1),
        .num (mkRat 1 1), .num (mkRat 2 1), .num (mkRat 10 1)],
      [.ts 20251117093000, .str "AAPL", .num (mkRat 1 1), .num (mkRat 2 1),
        .num (mkRat 1 1), .num (mkRat 2 1), .num (mkRat 10 1)]] }

/-- A market file carrying both a `Ticker` and a `Symbol` column. -/
def rawBothCols : Table :=
  { columns := ["Timestamp", "Ticker", "Symbol", "Open", "High", "Low", "Close", "Volume"],
    rows := [
      [.str "2025-11-17T09:30:00Z", .str "LEGACY", .str "AAPL", .str "1", .str "2",
        .str "1", .str "2", .str "10"]] }

/-- A market file whose timestamp cell is not ISO-8601. -/
def rawBadTs : Table :=
  { columns := ["timestamp", "symbol", "open", "high", "low", "close", "volume"],
    rows := [
      [.str "17/11/2025 09:30", .str "AAPL", .str "1", .str "2", .str "1",
        .str "2", .str "10"]] }

/-- `rawBothCols` after validation and reindexing: `ticker` kept as a
data column, `symbol` the key. -/
def bothOut : Table :=
  { columns := ["timestamp", "ticker", "symbol", "open", "high", "low", "close", "volume"],
    rows := [
      [.ts 20251117093000, .str "LEGACY", .str "AAPL", .num (mkRat 1 1), .num (mkRat 2 1),
        .num (mkRat 1 1), .num (mkRat 2 1), .num (mkRat 10 1)]] }

/-- A registry table whose symbols do not cover `sampleOut`'s `MSFT`. -/
def sampleTickers : List TickerRow :=
  [{ ticker_id := 1, symbol := "AAPL", name := "Apple Inc.", exchange := "NASDAQ" }]

/-! ## Helper lemmas -/

theorem except_bind_inv {ε α β : Type} {x : Except ε α} {f : α → Except ε β} {b : β}
    (h : (x >>= f) = .ok b) : ∃ a, x = .ok a ∧ f a = .ok b := by
  cases x with
  | ok a => exact ⟨a, rfl, h⟩
  | error e => exact absurd h (by simp [Bind.bind, Except.bind])

theorem except_bind_of_ok {ε α β : Type} {x : Except ε α} {f : α → Except ε β} {a : α}
    (hx : x = .ok a) : (x >>= f) = f a := by
  subst hx
  rfl

theorem except_bind_of_error {ε α β : Type} {x : Except ε α} {f : α → Except ε β} {e : ε}
    (hx : x = .error e) : (x >>= f) = .error e := by
  subst hx
  rfl

theorem parseTsRows_ok_length {i : Nat} : ∀ {rows rows2 : List (List Cell)},
    parseTsRows i rows = .ok rows2 → rows2.length = rows.length := by
  intro rows
  induction rows with
  | nil =>
      intro rows2 h
      simp only [parseTsRows] at h
      cases h
      rfl
  | cons r rs ih =>
      intro rows2 h
      simp only [parseTsRows] at h
      split at h
      · cases h
      · split at h
        · cases h
        · cases h
          rename_i hrest
          simp [ih hrest]

theorem applyTimestamp_ok {t u : Table} (h : applyTimestamp t = .ok u) :
    u.columns = t.columns ∧ u.rows.length = t.rows.length := by
  unfold applyTimestamp at h
  split at h
  · cases h
  · obtain ⟨rows2, hrows, hpure⟩ := except_bind_inv h
    cases hpure
    exact ⟨rfl, parseTsRows_ok_length hrows⟩

theorem applyNumeric_ok {t u : Table} {c : String} (h : applyNumeric t c = .ok u) :
    u.columns = t.columns ∧ u.rows.length = t.rows.length := by
  unfold applyNumeric at h
  split at h
  · cases h
  · cases h
    simp

theorem applyNumerics_ok {t u : Table} (h : applyNumerics t = .ok u) :
    u.columns = t.columns ∧ u.rows.length = t.rows.length := by
  unfold applyNumerics ohlcvCols at h
  simp only [List.foldlM] at h
  obtain ⟨t1, h1, h⟩ := except_bind_inv h
  obtain ⟨t2, h2, h⟩ := except_bind_inv h
  obtain ⟨t3, h3, h⟩ := except_bind_inv h
  obtain ⟨t4, h4, h⟩ := except_bind_inv h
  obtain ⟨t5, h5, h⟩ := except_bind_inv h
  cases h
  obtain ⟨hc1, hl1⟩ := applyNumeric_ok h1
  obtain ⟨hc2, hl2⟩ := applyNumeric_ok h2
  obtain ⟨hc3, hl3⟩ := applyNumeric_ok h3
  obtain ⟨hc4, hl4⟩ := applyNumeric_ok h4
  obtain ⟨hc5, hl5⟩ := applyNumeric_ok h5
  constructor
  · rw [hc5, hc4, hc3, hc2, hc1]
  · rw [hl5, hl4, hl3, hl2, hl1]

theorem normalize_ok {raw t : Table} (h : normalize raw = .ok t) :
    t.columns = normalizeColumns raw.columns ∧ t.rows.length = raw.rows.length := by
  unfold normalize at h
  obtain ⟨t2, h2, h3⟩ := except_bind_inv h
  obtain ⟨hc2, hl2⟩ := applyTimestamp_ok h2
  obtain ⟨hc3, hl3⟩ := applyNumerics_ok h3
  exact ⟨by rw [hc3, hc2], by rw [hl3, hl2]⟩

theorem validateAndIndex_ok_inv {required : List String} {t u : Table}
    (h : validateAndIndex required t = .ok u) :
    missingColsOf t = [] ∧ naCount t = 0 ∧ dupCount t = 0 ∧
      missingTickersOf required t = [] ∧
      u = { columns := t.columns, rows := List.insertionSort (keyLE t.columns) t.rows } := by
  unfold validateAndIndex at h
  split_ifs at h with h1 h2 h3 h4
  cases h
  refine ⟨not_not.mp h1, by omega, by omega, not_not.mp h4, rfl⟩

theorem validateAndIndex_missingData {required : List String} {t : Table}
    (hcols : missingColsOf t = []) (hna : 0 < naCount t) :
    validateAndIndex required t = .error LoadError.missingData := by
  unfold validateAndIndex
  rw [if_neg (by simp [hcols]), if_pos hna]

theorem validateAndIndex_duplicate {required : List String} {t : Table}
    (hcols : missingColsOf t = []) (hna : naCount t = 0) (hdup : 0 < dupCount t) :
    validateAndIndex required t = .error (LoadError.duplicateData (dupCount t)) := by
  unfold validateAndIndex
  rw [if_neg (by simp [hcols]), if_neg (by omega), if_pos hdup]

theorem validateAndIndex_missingTickers {required : List String} {t : Table}
    (hcols : missingColsOf t = []) (hna : naCount t = 0) (hdup : dupCount t = 0)
    (ht : missingTickersOf required t ≠ []) :
    validateAndIndex required t =
      .error (LoadError.missingTickers (missingTickersOf required t)) := by
  unfold validateAndIndex
  rw [if_neg (by simp [hcols]), if_neg (by omega), if_neg (by omega), if_pos ht]

theorem validateAndIndex_ok_of {required : List String} {t : Table}
    (hcols : missingColsOf t = []) (hna : naCount t = 0) (hdup : dupCount t = 0)
    (ht : missingTickersOf required t = []) :
    validateAndIndex required t =
      .ok { columns := t.columns, rows := List.insertionSort (keyLE t.columns) t.rows } := by
  unfold validateAndIndex
  rw [if_neg (by simp [hcols]), if_neg (by omega), if_neg (by omega), if_neg (by simp [ht])]

theorem load_ok_inv {required : List String} {raw out : Table}
    (h : load_validate_data required raw = .ok out) :
    ∃ t, normalize raw = .ok t ∧ validateAndIndex required t = .ok out := by
  unfold load_validate_data at h
  exact except_bind_inv h

theorem dedup_cons_length {α : Type} [DecidableEq α] (k : α) (L : List α) :
    (k :: L).dedup.length = (L.filter (fun x => decide (x ≠ k))).dedup.length + 1 := by
  rw [← List.card_toFinset, ← List.card_toFinset, List.toFinset_cons, List.toFinset_filter]
  have hfe : L.toFinset.filter (fun x => decide (x ≠ k)) = L.toFinset.erase k := by
    simpa using Finset.filter_ne' L.toFinset k
  rw [hfe]
  by_cases hk : k ∈ L.toFinset
  · rw [Finset.insert_eq_self.mpr hk]
    exact (Finset.card_erase_add_one hk).symm
  · rw [Finset.card_insert_of_not_mem hk, Finset.erase_eq_of_not_mem hk]

theorem dupCountAux_add_dedup (cols : List String) :
    ∀ (l : List (List Cell)) (seen : List (Cell × Cell)),
      dupCountAux cols seen l +
        ((l.map (dupKey cols)).filter (fun k => decide (k ∉ seen))).dedup.length = l.length := by
  intro l
  induction l with
  | nil => intro seen; simp [dupCountAux]
  | cons r rs ih =>
      intro seen
      simp only [dupCountAux, List.map_cons, List.filter_cons]
      by_cases hk : dupKey cols r ∈ seen
      · rw [if_pos hk]
        have hpred : ∀ x ∈ rs.map (dupKey cols),
            (decide (x ∉ dupKey cols r :: seen)) = (decide (x ∉ seen)) := by
          intro x _
          by_cases hx : x ∈ seen
          · simp [hx]
          · have : x ≠ dupKey cols r := fun hxy => hx (hxy ▸ hk)
            simp [hx, this]
        have := ih (dupKey cols r :: seen)
        rw [List.filter_congr hpred] at this
        simp only [decide_eq_true_eq, hk, not_true_eq_false, decide_False, Bool.false_eq_true,
          if_false, List.length_cons]
        omega
      · rw [if_neg hk]
        simp only [decide_eq_true_eq, hk, not_false_eq_true, decide_True, if_true,
          List.length_cons]
        have hsplit : (rs.map (dupKey cols)).filter (fun k => decide (k ∉ dupKey cols r :: seen)) =
            ((rs.map (dupKey cols)).filter (fun k => decide (k ∉ seen))).filter
              (fun k => decide (k ≠ dupKey cols r)) := by
          rw [List.filter_filter]
          apply List.filter_congr
          intro x _
          by_cases hx1 : x = dupKey cols r <;> by_cases hx2 : x ∈ seen <;>
            simp [hx1, hx2]
        have := ih (dupKey cols r :: seen)
        rw [hsplit] at this
        rw [dedup_cons_length]
        omega

theorem dupCount_add_distinct (t : Table) :
    dupCount t + (t.rows.map (dupKey t.columns)).dedup.length = t.rows.length := by
  have := dupCountAux_add_dedup t.columns t.rows []
  simpa using this

theorem load_eq_of {required : List String} {raw t : Table} (hn : normalize raw = .ok t) :
    load_validate_data required raw = validateAndIndex required t := by
  rw [load_validate_data, except_bind_of_ok hn]

/-! ## Claims -/

/-- C1: the spec says a file missing any of the seven critical columns
fails with the column-missing error, fired before every other failure
mode.  The code instead reads the timestamp and OHLCV columns during
normalization, before the column-completeness check: on a file missing
only the `open` column it raises `KeyError('open')` at the numeric
coercion, and the column-missing `ValueError` is never reached. -/
theorem C1_missing_open_column_raises_keyerror :
    load_validate_data ["AAPL"] rawNoOpen = .error (LoadError.keyError "open") ∧
      ∀ cs, load_validate_data ["AAPL"] rawNoOpen ≠ .error (LoadError.missingColumns cs) := by
  have hload : load_validate_data ["AAPL"] rawNoOpen = .error (LoadError.keyError "open") := by
    rfl
  refine ⟨hload, ?_⟩
  intro cs h
  rw [hload] at h
  simp at h

/-- C2: on any input whose load succeeds, the returned table has the
same columns and exactly the rows of the normalized table (a
permutation, hence content unchanged), its row count equals the raw
input's row count, and the rows are sorted by the composite
(timestamp ascending, symbol ascending) key. -/
theorem C2_valid_load_sorted_permutation (required : List String) (raw t out : Table)
    (hn : normalize raw = .ok t) (hl : load_validate_data required raw = .ok out) :
    out.columns = t.columns ∧ out.rows.Perm t.rows ∧
      out.rows.length = raw.rows.length ∧ List.Sorted (keyLE out.columns) out.rows := by
  obtain ⟨t2, hn2, hv⟩ := load_ok_inv hl
  rw [hn] at hn2
  cases hn2
  obtain ⟨-, -, -, -, hu⟩ := validateAndIndex_ok_inv hv
  subst hu
  refine ⟨rfl, List.perm_insertionSort _ _, ?_, List.sorted_insertionSort _ _⟩
  have hlen := (normalize_ok hn).2
  simpa [List.length_insertionSort] using hlen

/-- Witness for C2 at the concrete sample file. -/
theorem C2_witness :
    sampleOut.columns = sampleNorm.columns ∧ sampleOut.rows.Perm sampleNorm.rows ∧
      sampleOut.rows.length = sampleRaw.rows.length ∧
      List.Sorted (keyLE sampleOut.columns) sampleOut.rows :=
  C2_valid_load_sorted_permutation ["AAPL", "MSFT"] sampleRaw sampleNorm sampleOut
    (by rfl)
    (by rw [load_eq_of (by rfl : normalize sampleRaw = .ok sampleNorm)]; rfl)

/-- C3: a normalized table that has all critical columns but any
missing marker among the critical cells makes `load_validate_data`
abort with the missing-data error, so the pipeline never reaches either
persister. -/
theorem C3_missing_values_error_before_persistence (required : List String)
    (tickersTable : List TickerRow) (prevDb : Option SqliteDb) (prevPq : Option ParquetDataset)
    (raw t : Table) (hn : normalize raw = .ok t) (hcols : missingColsOf t = [])
    (hna : 0 < naCount t) :
    load_validate_data required raw = .error LoadError.missingData ∧
      runPipeline required tickersTable raw prevDb prevPq = .error LoadError.missingData := by
  have hl : load_validate_data required raw = .error LoadError.missingData := by
    rw [load_eq_of hn]
    exact validateAndIndex_missingData hcols hna
  refine ⟨hl, ?_⟩
  rw [runPipeline, except_bind_of_error hl]

/-- Witness for C3: a blank `close` cell aborts the whole pipeline. -/
theorem C3_witness :
    load_validate_data ["AAPL"] rawDupAndNa = .error LoadError.missingData ∧
      runPipeline ["AAPL"] sampleTickers rawDupAndNa none none =
        .error LoadError.missingData :=
  C3_missing_values_error_before_persistence ["AAPL"] sampleTickers none none
    rawDupAndNa normDupAndNa (by rfl) (by rfl) (by decide)

/-- C4 counterexample: a table with two rows sharing a
(timestamp, symbol) key AND a missing `close` value fails with the
missing-data error, not the duplicate-data error the claim requires for
every table with duplicate keys. -/
theorem C4_counterexample :
    normalize rawDupAndNa = .ok normDupAndNa ∧
      dupKey normDupAndNa.columns (normDupAndNa.rows.getD 0 []) =
        dupKey normDupAndNa.columns (normDupAndNa.rows.getD 1 []) ∧
      load_validate_data ["AAPL"] rawDupAndNa = .error LoadError.missingData ∧
      ∀ n, load_validate_data ["AAPL"] rawDupAndNa ≠ .error (LoadError.duplicateData n) := by
  have hload : load_validate_data ["AAPL"] rawDupAndNa = .error LoadError.missingData := by
    rfl
  refine ⟨by rfl, by rfl, hload, ?_⟩
  intro n h
  rw [hload] at h
  simp at h

/-- C4 amended: on a normalized table that passes the column and
value-completeness gates, duplicate (timestamp, symbol) keys make
`load_validate_data` fail with the duplicate-data error, whose count is
exactly the number of rows that repeat an earlier row's key (total rows
minus distinct keys). -/
theorem C4_amended_duplicate_error (required : List String) (raw t : Table)
    (hn : normalize raw = .ok t) (hcols : missingColsOf t = []) (hna : naCount t = 0)
    (hdup : 0 < dupCount t) :
    load_validate_data required raw = .error (LoadError.duplicateData (dupCount t)) ∧
      dupCount t + (t.rows.map (dupKey t.columns)).dedup.length = t.rows.length := by
  refine ⟨?_, dupCount_add_distinct t⟩
  rw [load_eq_of hn]
  exact validateAndIndex_duplicate hcols hna hdup

/-- Witness for the amended C4: two identical valid rows yield the
duplicate-data error with count 1 = 2 rows − 1 distinct key. -/
theorem C4_amended_witness :
    load_validate_data ["AAPL"] rawDup = .error (LoadError.duplicateData (dupCount normDup)) ∧
      dupCount normDup + (normDup.rows.map (dupKey normDup.columns)).dedup.length =
        normDup.rows.length :=
  C4_amended_duplicate_error ["AAPL"] rawDup normDup (by rfl) (by rfl) (by rfl) (by decide)

/-- C5 counterexample: with registry {AAPL, MSFT} and a market table
containing only duplicated AAPL rows, the absent registry symbol MSFT
does not produce the missing-tickers error — the duplicate gate fires
first. -/
theorem C5_counterexample :
    normalize rawDup = .ok normDup ∧
      missingTickersOf ["AAPL", "MSFT"] normDup = ["MSFT"] ∧
      load_validate_data ["AAPL", "MSFT"] rawDup = .error (LoadError.duplicateData 1) ∧
      ∀ syms, load_validate_data ["AAPL", "MSFT"] rawDup ≠
        .error (LoadError.missingTickers syms) := by
  have hload : load_validate_data ["AAPL", "MSFT"] rawDup =
      .error (LoadError.duplicateData 1) := by rfl
  refine ⟨by rfl, by rfl, hload, ?_⟩
  intro syms h
  rw [hload] at h
  simp at h

/-- C5 amended: on a normalized table that passes the first three
gates, `load_validate_data` fails with the missing-tickers error naming
exactly the registry symbols absent from the data whenever the set is
nonempty, and succeeds when every registry symbol is covered — data
symbols outside the registry never cause an error. -/
theorem C5_amended_registry_coverage (required : List String) (raw t : Table)
    (hn : normalize raw = .ok t) (hcols : missingColsOf t = []) (hna : naCount t = 0)
    (hdup : dupCount t = 0) :
    (missingTickersOf required t ≠ [] →
      load_validate_data required raw =
        .error (LoadError.missingTickers (missingTickersOf required t))) ∧
    (missingTickersOf required t = [] →
      ∃ out, load_validate_data required raw = .ok out) := by
  constructor
  · intro ht
    rw [load_eq_of hn]
    exact validateAndIndex_missingTickers hcols hna hdup ht
  · intro ht
    refine ⟨{ columns := t.columns, rows := List.insertionSort (keyLE t.columns) t.rows }, ?_⟩
    rw [load_eq_of hn]
    exact validateAndIndex_ok_of hcols hna hdup ht

/-- Witness for the amended C5: an uncovered registry symbol `TSLA`
is reported; a data symbol `MSFT` outside a registry of just `AAPL` is
silently accepted. -/
theorem C5_amended_witness :
    load_validate_data ["AAPL", "TSLA"] sampleRaw =
        .error (LoadError.missingTickers (missingTickersOf ["AAPL", "TSLA"] sampleNorm)) ∧
      ∃ out, load_validate_data ["AAPL"] sampleRaw = .ok out :=
  ⟨(C5_amended_registry_coverage ["AAPL", "TSLA"] sampleRaw sampleNorm
      (by rfl) (by rfl) (by rfl) (by rfl)).1 (by decide),
   (C5_amended_registry_coverage ["AAPL"] sampleRaw sampleNorm
      (by rfl) (by rfl) (by rfl) (by rfl)).2 (by rfl)⟩

/-- C6: when the lowercased raw header has `ticker` and no `symbol`,
any successfully loaded table carries a `symbol` column and no `ticker`
column; when it has both, both survive untouched (no rename) and the
rows are keyed — sorted — by the composite key that reads the `symbol`
column. -/
theorem C6_ticker_symbol_normalization (required : List String) (raw out : Table)
    (hl : load_validate_data required raw = .ok out) :
    (("ticker" ∈ raw.columns.map strLower ∧ "symbol" ∉ raw.columns.map strLower) →
      "symbol" ∈ out.columns ∧ "ticker" ∉ out.columns) ∧
    (("ticker" ∈ raw.columns.map strLower ∧ "symbol" ∈ raw.columns.map strLower) →
      "ticker" ∈ out.columns ∧ "symbol" ∈ out.columns ∧
        out.columns = raw.columns.map strLower) ∧
    List.Sorted (keyLE out.columns) out.rows := by
  obtain ⟨t, hn, hv⟩ := load_ok_inv hl
  obtain ⟨-, -, -, -, hu⟩ := validateAndIndex_ok_inv hv
  have hcols : out.columns = normalizeColumns raw.columns := by
    rw [hu]
    exact (normalize_ok hn).1
  refine ⟨?_, ?_, ?_⟩
  · rintro ⟨htk, hsy⟩
    rw [hcols]
    unfold normalizeColumns
    rw [if_pos ⟨htk, hsy⟩]
    constructor
    · exact List.mem_map.mpr ⟨"ticker", htk, by simp⟩
    · intro hmem
      obtain ⟨c, hc, hce⟩ := List.mem_map.mp hmem
      by_cases hct : c = "ticker"
      · rw [if_pos hct] at hce
        exact absurd hce (by simp)
      · rw [if_neg hct] at hce
        exact hct hce
  · rintro ⟨htk, hsy⟩
    have hnr : normalizeColumns raw.columns = raw.columns.map strLower := by
      unfold normalizeColumns
      rw [if_neg (by simp [hsy])]
    rw [hcols, hnr]
    exact ⟨htk, hsy, rfl⟩
  · rw [hu]
    exact List.sorted_insertionSort _ _

/-- Witness for C6: the rename case on `sampleRaw`, the two-column case
on `rawBothCols`. -/
theorem C6_witness :
    ("symbol" ∈ sampleOut.columns ∧ "ticker" ∉ sampleOut.columns) ∧
      ("ticker" ∈ bothOut.columns ∧ "symbol" ∈ bothOut.columns ∧
        bothOut.columns = rawBothCols.columns.map strLower) :=
  ⟨(C6_ticker_symbol_normalization ["AAPL", "MSFT"] sampleRaw sampleOut
      (by rw [load_eq_of (by rfl : normalize sampleRaw = .ok sampleNorm)]; rfl)).1
    ⟨by decide, by decide⟩,
   (C6_ticker_symbol_normalization ["AAPL"] rawBothCols bothOut
      (by rfl)).2.1
    ⟨by decide, by decide⟩⟩

/-- C8: both persisters rebuild their destination from scratch: the
resulting store does not depend on what was there before, so a rerun on
the same inputs leaves exactly the single-run state — contents are
replaced, never merged. -/
theorem C8_idempotent_destructive_rebuild (prev1 prev2 : Option SqliteDb)
    (pq1 pq2 : Option ParquetDataset) (tickersTable : List TickerRow) (df : Table) :
    create_and_populate_db prev1 tickersTable df = create_and_populate_db prev2 tickersTable df ∧
      create_and_populate_db (some (create_and_populate_db prev1 tickersTable df))
          tickersTable df =
        create_and_populate_db prev1 tickersTable df ∧
      saveParquetRun pq1 df = saveParquetRun pq2 df ∧
      saveParquetRun (some (saveParquetRun pq1 df)) df = saveParquetRun pq1 df :=
  ⟨rfl, rfl, rfl, rfl⟩

/-- C9: every Validated Table row is appended to `prices` (none are
rejected — the table gains exactly one row per data row), and a row
whose symbol has no entry in the freshly populated `tickers` table gets
a null `ticker_id` foreign key. -/
theorem C9_unmapped_symbol_null_fk (prev : Option SqliteDb) (tickersTable : List TickerRow)
    (df : Table) :
    (create_and_populate_db prev tickersTable df).prices.length = df.rows.length ∧
      ∀ r ∈ df.rows,
        (∀ tr ∈ tickersTable, tr.symbol ≠ cellStr (getCell df.columns r "symbol")) →
        priceRowOf tickersTable df.columns r ∈
            (create_and_populate_db prev tickersTable df).prices ∧
          (priceRowOf tickersTable df.columns r).ticker_id = none := by
  constructor
  · simp [create_and_populate_db, executeSchema]
  · intro r hr hno
    constructor
    · simp only [create_and_populate_db, executeSchema, List.nil_append]
      exact List.mem_map_of_mem _ hr
    · have hfind : tickersTable.reverse.find? (fun tr => tr.symbol == cellStr
          (getCell df.columns r "symbol")) = none := by
        rw [List.find?_eq_none]
        intro tr htr
        simpa using hno tr (List.mem_reverse.mp htr)
      simp [priceRowOf, symbolToId, hfind]

/-- Witness for C9: the MSFT row of `sampleOut` has no row in
`sampleTickers`, is still inserted, and carries a null foreign key. -/
theorem C9_witness :
    (create_and_populate_db none sampleTickers sampleOut).prices.length =
        sampleOut.rows.length ∧
      priceRowOf sampleTickers sampleOut.columns (sampleOut.rows.getD 1 []) ∈
          (create_and_populate_db none sampleTickers sampleOut).prices ∧
        (priceRowOf sampleTickers sampleOut.columns (sampleOut.rows.getD 1 [])).ticker_id =
          none :=
  ⟨(C9_unmapped_symbol_null_fk none sampleTickers sampleOut).1,
   (C9_unmapped_symbol_null_fk none sampleTickers sampleOut).2
     (sampleOut.rows.getD 1 []) (by decide) (by decide)⟩

theorem toDatetimeCell_error_parse {c : Cell} {e : LoadError}
    (h : toDatetimeCell c = .error e) : ∃ s, e = LoadError.parseError s := by
  cases c with
  | na => cases h
  | ts t => cases h
  | num q =>
      refine ⟨toString q, ?_⟩
      cases h
      rfl
  | str s =>
      simp only [toDatetimeCell] at h
      cases hp : parseISO8601 s with
      | some t =>
          rw [hp] at h
          cases h
      | none =>
          rw [hp] at h
          injection h with h2
          exact ⟨s, h2.symm⟩

theorem parseTsRows_error_of_bad {i : Nat} {s : String} :
    ∀ {rows : List (List Cell)} {r : List Cell}, r ∈ rows →
      r.getD i Cell.na = Cell.str s → parseISO8601 s = none →
      ∃ s2, parseTsRows i rows = .error (LoadError.parseError s2) := by
  intro rows
  induction rows with
  | nil =>
      intro r hr _ _
      cases hr
  | cons x xs ih =>
      intro r hr hcell hbad
      simp only [parseTsRows]
      cases htd : toDatetimeCell (x.getD i Cell.na) with
      | error e =>
          obtain ⟨s2, rfl⟩ := toDatetimeCell_error_parse htd
          exact ⟨s2, rfl⟩
      | ok c =>
          rcases List.mem_cons.mp hr with rfl | hr2
          · rw [hcell] at htd
            simp only [toDatetimeCell, hbad] at htd
            cases htd
          · obtain ⟨s2, hrec⟩ := ih hr2 hcell hbad
            rw [hrec]
            exact ⟨s2, rfl⟩

/-- C10: a market file whose timestamp column holds a string that is
not ISO-8601 makes the timestamp parse of normalization raise a parse
error; unlike a malformed OHLCV cell it is never coerced to the missing
marker, so the missing-data gate is never the reported failure. -/
theorem C10_unparseable_timestamp_parse_error (required : List String) (raw : Table)
    (i : Nat) (r : List Cell) (s : String)
    (hidx : colIdx (normalizeColumns raw.columns) "timestamp" = some i)
    (hr : r ∈ raw.rows) (hcell : r.getD i Cell.na = Cell.str s)
    (hbad : parseISO8601 s = none) :
    (∃ s2, load_validate_data required raw = .error (LoadError.parseError s2)) ∧
      load_validate_data required raw ≠ .error LoadError.missingData := by
  obtain ⟨s2, herr⟩ := parseTsRows_error_of_bad hr hcell hbad
  have hat : applyTimestamp { columns := normalizeColumns raw.columns, rows := raw.rows } =
      .error (LoadError.parseError s2) := by
    unfold applyTimestamp
    rw [show colIdx (Table.mk (normalizeColumns raw.columns) raw.rows).columns "timestamp" =
      some i from hidx]
    exact except_bind_of_error herr
  have hnorm : normalize raw = .error (LoadError.parseError s2) := by
    rw [normalize, except_bind_of_error hat]
  have hload : load_validate_data required raw = .error (LoadError.parseError s2) := by
    rw [load_validate_data, except_bind_of_error hnorm]
  refine ⟨⟨s2, hload⟩, ?_⟩
  intro h
  rw [hload] at h
  simp at h

/-- Witness for C10: a `DD/MM/YYYY HH:MM` timestamp is rejected with a
parse error. -/
theorem C10_witness :
    (∃ s2, load_validate_data ["AAPL"] rawBadTs = .error (LoadError.parseError s2)) ∧
      load_validate_data ["AAPL"] rawBadTs ≠ .error LoadError.missingData :=
  C10_unparseable_timestamp_parse_error ["AAPL"] rawBadTs 0
    (rawBadTs.rows.getD 0 []) "17/11/2025 09:30" (by rfl) (by decide) (by rfl) (by rfl)

theorem mem_of_missingColsOf_nil {t : Table} (h : missingColsOf t = []) :
    ∀ c ∈ criticalCols, c ∈ t.columns := by
  intro c hc
  by_contra hnc
  have hmem : c ∈ missingColsOf t := List.mem_filter.mpr ⟨hc, by simpa using hnc⟩
  rw [h] at hmem
  cases hmem

theorem find?_map_pair_of_mem {β : Type} (f : String → β) :
    ∀ (l : List String) (s : String), s ∈ l →
      (l.map (fun x => (x, f x))).find? (fun p => p.1 == s) = some (s, f s) := by
  intro l
  induction l with
  | nil =>
      intro s hs
      cases hs
  | cons x xs ih =>
      intro s hs
      by_cases hx : x = s
      · subst hx
        rw [List.map_cons, List.find?_cons_of_pos _ (by simp)]
      · have hsx : s ∈ xs := by
          rcases List.mem_cons.mp hs with h | h
          · exact absurd h.symm hx
          · exact h
        rw [List.map_cons, List.find?_cons_of_neg _ (by simpa using hx)]
        exact ih s hsx

theorem find?_map_pair_of_not_mem {β : Type} (f : String → β) (l : List String) (s : String)
    (hs : s ∉ l) : (l.map (fun x => (x, f x))).find? (fun p => p.1 == s) = none := by
  rw [List.find?_eq_none]
  intro p hp
  obtain ⟨x, hx, rfl⟩ := List.mem_map.mp hp
  simp only [beq_iff_eq]
  exact fun h => hs (h ▸ hx)

theorem getCell_restrict_append (cols : List String) (r : List Cell) :
    ∀ (sel : List String) (c : String), c ∈ sel → ∀ (extra : List String) (ex : List Cell),
      getCell (sel ++ extra) (restrictRow cols r sel ++ ex) c = getCell cols r c := by
  intro sel
  induction sel with
  | nil =>
      intro c hc
      cases hc
  | cons x xs ih =>
      intro c hc extra ex
      have hrr : restrictRow cols r (x :: xs) ++ ex =
          getCell cols r x :: (restrictRow cols r xs ++ ex) := rfl
      by_cases hx : x = c
      · subst hx
        unfold getCell colIdx
        rw [hrr, List.cons_append, List.findIdx?_cons, if_pos (by simp)]
        rfl
      · have hcx : c ∈ xs := by
          rcases List.mem_cons.mp hc with h | h
          · exact absurd h.symm hx
          · exact h
        have ihx := ih c hcx extra ex
        unfold getCell colIdx at ihx ⊢
        rw [hrr, List.cons_append, List.findIdx?_cons, if_neg (by simpa using hx),
          List.findIdx?_succ]
        cases hf : List.findIdx? (fun y => y == c) (xs ++ extra) with
        | none =>
            rw [hf] at ihx
            simpa using ihx
        | some j =>
            rw [hf] at ihx
            simpa [List.getD_cons_succ, List.getElem?_cons_succ] using ihx

theorem keyLE_ts_le {cols : List String} {a b : List Cell} (h : keyLE cols a b) :
    cellTs (getCell cols a "timestamp") ≤ cellTs (getCell cols b "timestamp") := by
  unfold keyLE keyLEb rowKey at h
  simp only [Bool.or_eq_true, Bool.and_eq_true, Nat.blt_eq, Nat.beq_eq] at h
  rcases h with h | ⟨h, -⟩
  · exact Nat.le_of_lt h
  · exact Nat.le_of_eq h

theorem read_filtered_spec (df : Table) (s : String) :
    (read_parquet_filtered (save_to_parquet df) s).rows =
      (df.rows.filter (fun r => cellStr (getCell df.columns r "symbol") == s)).map
        (fun r => restrictRow df.columns r (dataCols df) ++ [Cell.str s]) ∧
    ((read_parquet_filtered (save_to_parquet df) s).columns = dataCols df ++ ["symbol"] ∨
      (read_parquet_filtered (save_to_parquet df) s).rows = []) := by
  by_cases hs : s ∈ (df.rows.map (fun r => cellStr (getCell df.columns r "symbol"))).dedup
  · have hfind := find?_map_pair_of_mem (partitionOf df)
      (df.rows.map (fun r => cellStr (getCell df.columns r "symbol"))).dedup s hs
    have hread : read_parquet_filtered (save_to_parquet df) s =
        { columns := dataCols df ++ ["symbol"],
          rows := ((df.rows.filter
              (fun r => cellStr (getCell df.columns r "symbol") == s)).map
            (fun r => restrictRow df.columns r (dataCols df))).map
              (fun r => r ++ [Cell.str s]) } := by
      unfold read_parquet_filtered save_to_parquet
      rw [hfind]
      rfl
    rw [hread]
    constructor
    · rw [List.map_map]
      rfl
    · left
      rfl
  · have hfind := find?_map_pair_of_not_mem (partitionOf df)
      (df.rows.map (fun r => cellStr (getCell df.columns r "symbol"))).dedup s hs
    have hread : read_parquet_filtered (save_to_parquet df) s =
        { columns := [], rows := [] } := by
      unfold read_parquet_filtered save_to_parquet
      rw [hfind]
    rw [hread]
    have hfilter : df.rows.filter (fun r => cellStr (getCell df.columns r "symbol") == s) = [] := by
      rw [List.filter_eq_nil_iff]
      intro r hr
      simp only [beq_iff_eq]
      intro heq
      exact hs (List.mem_dedup.mpr (List.mem_map.mpr ⟨r, hr, heq⟩))
    rw [hfilter]
    exact ⟨rfl, Or.inr rfl⟩

/-- C7: for any successfully loaded table, a partition-pruned read of
one symbol returns exactly that symbol's rows in timestamp-ascending
order with every stored column's value equal to the source row's, and a
column-pruned read returns exactly the requested columns. -/
theorem C7_parquet_roundtrip (required : List String) (raw out : Table) (s : String)
    (sel : List String) (hl : load_validate_data required raw = .ok out) :
    (read_parquet_filtered (save_to_parquet out) s).rows =
        (out.rows.filter (fun r => cellStr (getCell out.columns r "symbol") == s)).map
          (fun r => restrictRow out.columns r (dataCols out) ++ [Cell.str s]) ∧
      List.Sorted (· ≤ ·)
        ((read_parquet_filtered (save_to_parquet out) s).rows.map
          (fun r => cellTs (getCell (read_parquet_filtered (save_to_parquet out) s).columns r
            "timestamp"))) ∧
      (read_parquet_columns (save_to_parquet out) sel).columns = sel := by
  obtain ⟨rowsEq, colsCase⟩ := read_filtered_spec out s
  refine ⟨rowsEq, ?_, rfl⟩
  obtain ⟨t, hn, hv⟩ := load_ok_inv hl
  obtain ⟨hcols0, -, -, -, hu⟩ := validateAndIndex_ok_inv hv
  have hsorted : List.Sorted (keyLE out.columns) out.rows := by
    rw [hu]
    exact List.sorted_insertionSort _ _
  rcases colsCase with hc | hc
  · have hts : "timestamp" ∈ dataCols out := by
      have h1 : "timestamp" ∈ t.columns :=
        mem_of_missingColsOf_nil hcols0 "timestamp" (by simp [criticalCols])
      have h2 : "timestamp" ∈ out.columns := by
        rw [hu]
        exact h1
      exact List.mem_filter.mpr ⟨h2, by simp⟩
    rw [rowsEq, hc, List.map_map]
    have hfun : ∀ r ∈ out.rows.filter
        (fun r => cellStr (getCell out.columns r "symbol") == s),
        ((fun r => cellTs (getCell (dataCols out ++ ["symbol"]) r "timestamp")) ∘
          (fun r => restrictRow out.columns r (dataCols out) ++ [Cell.str s])) r =
          cellTs (getCell out.columns r "timestamp") := by
      intro r _
      simp only [Function.comp]
      rw [getCell_restrict_append out.columns r (dataCols out) "timestamp" hts
        ["symbol"] [Cell.str s]]
    rw [List.map_congr_left hfun]
    have hpf : List.Pairwise (keyLE out.columns)
        (out.rows.filter (fun r => cellStr (getCell out.columns r "symbol") == s)) :=
      hsorted.filter _
    exact List.pairwise_map.mpr (hpf.imp (fun h => keyLE_ts_le h))
  · rw [hc]
    simp

/-- Witness for C7 at the concrete sample, symbol `AAPL`, column
selection {timestamp, close}. -/
theorem C7_witness :
    (read_parquet_filtered (save_to_parquet sampleOut) "AAPL").rows =
        (sampleOut.rows.filter
            (fun r => cellStr (getCell sampleOut.columns r "symbol") == "AAPL")).map
          (fun r => restrictRow sampleOut.columns r (dataCols sampleOut) ++ [Cell.str "AAPL"]) ∧
      List.Sorted (· ≤ ·)
        ((read_parquet_filtered (save_to_parquet sampleOut) "AAPL").rows.map
          (fun r => cellTs (getCell
            (read_parquet_filtered (save_to_parquet sampleOut) "AAPL").columns r
            "timestamp"))) ∧
      (read_parquet_columns (save_to_parquet sampleOut) ["timestamp", "close"]).columns =
        ["timestamp", "close"] :=
  C7_parquet_roundtrip ["AAPL", "MSFT"] sampleRaw sampleOut "AAPL" ["timestamp", "close"]
    (by rw [load_eq_of (by rfl : normalize sampleRaw = .ok sampleNorm)]; rfl)

end MarketPipeline
